import Mathlib

/-!
Verification of the iopup benchmark-orchestration core (`bin/iopup.py`) and
the loss-report derivation (`bin/interference_summary.py`).

The Python code is shallowly embedded: launcher objects become an explicit
`LauncherState` record, mutating methods become functions from state to
state, raised exceptions become `Except Err`, and subprocess creation is
recorded as an explicit list of launched command lines (`Effects`).
Python `dict`s (which preserve insertion order) are modelled as ordered
association lists, and Python's whitespace `str.split` is modelled by
`splitWs`.
-/

deriving instance DecidableEq for Except

namespace Iopup

/-- Ordered association-list lookup, modelling Python `d[k]` /
`d.get(k)` for `dict`s keyed by strings (`none` = `KeyError` for the
bracket form). -/
def dictGet {α : Type} : List (String × α) → String → Option α
  | [], _ => none
  | kv :: rest, k => if kv.1 = k then some kv.2 else dictGet rest k

/-- Python `d[k] = v` on an insertion-ordered `dict`: an existing key keeps
its position, a new key is appended at the end. -/
def dictSet {α : Type} (d : List (String × α)) (k : String) (v : α) :
    List (String × α) :=
  if d.any (fun kv => kv.1 = k) then
    d.map (fun kv => if kv.1 = k then (k, v) else kv)
  else d ++ [(k, v)]

/-- Python `d.update(upd)` on insertion-ordered `dict`s. -/
def dictUpdate {α : Type} (d : List (String × α)) (upd : List (String × α)) :
    List (String × α) :=
  upd.foldl (fun acc kv => dictSet acc kv.1 kv.2) d

/-- Splitter for Python `s.strip().split()`: maximal runs of non-whitespace
characters, with all whitespace discarded.  (The configuration strings use
only ASCII blanks, so `Char.isWhitespace` is an adequate whitespace test.) -/
def splitWsAux : List Char → List Char → List (List Char)
  | [], acc => if acc.isEmpty then [] else [acc.reverse]
  | c :: cs, acc =>
    if c.isWhitespace then
      if acc.isEmpty then splitWsAux cs [] else acc.reverse :: splitWsAux cs []
    else splitWsAux cs (c :: acc)

/-- Python `s.strip().split()` as used by `_init_args` (iopup.py lines
104-119). -/
def splitWs (s : String) : List String :=
  (splitWsAux s.data []).map (fun l => String.mk l)

/-- Python `sep.join(l)`. -/
def joinWith (sep : String) : List String → String
  | [] => ""
  | [x] => x
  | x :: xs => x ++ sep ++ joinWith sep xs

/-- Python `l.index(x)` for lists of strings (callers guard with `in`, so
the not-found value is never reached; we return the length then). -/
def idxOfStr : List String → String → Nat
  | [], _ => 0
  | x :: xs, t => if x = t then 0 else 1 + idxOfStr xs t

/-- The three concrete benchmark adapters of iopup.py. -/
inductive Variant
  | elbencho
  | ior
  | mdworkbench
deriving DecidableEq, Repr

/-- A value passed as an extra keyword argument (`**kwargs`) to a launcher;
`_prep_cmdline` (lines 166-171) distinguishes `bool` from everything else,
which it stringifies. -/
inductive KwVal
  | bool (b : Bool)
  | str (s : String)
deriving DecidableEq, Repr

/-- A stdout/stderr destination: an open file object (identified by its
`.name` path) or `subprocess.PIPE`.  `Option StreamDest` adds Python
`None`. -/
inductive StreamDest
  | file (name : String)
  | pipe
deriving DecidableEq, Repr

/-- Python exceptions raised by the embedded code. -/
inductive Err
  | keyError (k : String)
  | valueError (msg : String)
  | typeError
  | indexError
  | notImplemented (msg : String)
deriving DecidableEq, Repr

/-- A launched subprocess: the command line handed to `subprocess.Popen`
together with the stdout/stderr destinations it was given. -/
structure Proc where
  cmdline : List String
  stdout : Option StreamDest
  stderr : Option StreamDest
deriving DecidableEq, Repr

/-- The state of a `BenchmarkLauncher` object (iopup.py lines 67-88),
after `_init_args` has tokenized the argument tables. -/
structure LauncherState where
  variant : Variant
  binary : String
  hosts : Option (List String)
  ppn : Nat
  output_dir : List String
  timelimit : Nat
  timelimit_args : List String
  random_data : Bool
  random_data_args : List String
  test : Bool
  kwargs : List (String × KwVal)
  cmdline : List String
  common_args : List String
  access_args : List (String × List String)
  pattern_args : List (String × List String)
  access_pattern_args : List (String × List (String × List String))
  prepend_cmdline : List String
  stdout : Option StreamDest
  stderr : Option StreamDest
  livecsv : Bool
deriving DecidableEq, Repr

/-- A per-tool configuration entry (`config[key]`, cf. §6 of the spec and
`_init_args`, lines 103-109).  Optional keys carry the `.get` defaults;
the required keys (`binary`, `common_args`, `access_args`, `pattern_args`,
`timelimit_args`) are structure fields, so a configuration missing one of
them is not representable (Python would raise `KeyError` during
construction; no claim exercises that path). -/
structure ToolConfig where
  binary : String
  common_args : String
  access_args : List (String × String)
  pattern_args : List (String × String)
  access_pattern_args : List (String × List (String × String)) := []
  random_data_args : String := ""
  timelimit_args : String
deriving DecidableEq, Repr

/-- Model of `BenchmarkLauncher.__init__` (lines 67-88): the base-class field
initialisation, before a child class runs `_init_args`. -/
def baseInit (v : Variant) (hosts : Option (List String)) (ppn : Nat)
    (output_dir : List String) (timelimit : Nat) (random_data : Bool)
    (test : Bool) (stdout stderr : Option StreamDest)
    (kwargs : List (String × KwVal)) : LauncherState :=
  { variant := v
    binary := ""
    hosts := hosts
    ppn := ppn
    output_dir := output_dir
    timelimit := timelimit
    timelimit_args := []
    random_data := random_data
    random_data_args := []
    test := test
    kwargs := kwargs
    cmdline := []
    common_args := []
    access_args := []
    pattern_args := []
    access_pattern_args := []
    prepend_cmdline := []
    stdout := stdout
    stderr := stderr
    livecsv := false }

/-- Model of `_init_args` (lines 92-119): copy the tool's CLI argument strings out
of the configuration and whitespace-tokenize them. -/
def applyInitArgs (st : LauncherState) (cfg : ToolConfig) : LauncherState :=
  { st with
    binary := cfg.binary
    common_args := splitWs cfg.common_args
    access_args := cfg.access_args.map (fun kv => (kv.1, splitWs kv.2))
    pattern_args := cfg.pattern_args.map (fun kv => (kv.1, splitWs kv.2))
    access_pattern_args :=
      cfg.access_pattern_args.map
        (fun am => (am.1, am.2.map (fun pv => (pv.1, splitWs pv.2))))
    random_data_args := splitWs cfg.random_data_args
    timelimit_args := splitWs cfg.timelimit_args }

/-- Model of `ElbenchoLauncher.__init__` (lines 281-292): load the "elbencho"
config, then overwrite the token after `-t`/`--threads` (or, when neither
is present, the second token) with the per-node process count.  Python
raises `IndexError` when that position does not exist. -/
def mkElbencho (hosts : Option (List String)) (ppn : Nat)
    (output_dir : List String) (timelimit : Nat) (random_data : Bool)
    (test : Bool) (stdout stderr : Option StreamDest)
    (kwargs : List (String × KwVal)) (cfg : ToolConfig) :
    Except Err LauncherState :=
  let st := applyInitArgs
    (baseInit .elbencho hosts ppn output_dir timelimit random_data test
      stdout stderr kwargs) cfg
  let idx :=
    if st.common_args.contains "-t" then idxOfStr st.common_args "-t"
    else if st.common_args.contains "--threads" then
      idxOfStr st.common_args "--threads"
    else 0
  if idx + 1 < st.common_args.length then
    .ok { st with
      common_args := st.common_args.set (idx + 1) (toString ppn)
      livecsv := false }
  else .error .indexError

/-- Model of `IorLauncher.__init__` (lines 367-376).  `len(self._hosts)` raises
`TypeError` when hosts is `None`. -/
def mkIor (mpirun : String) (hosts : Option (List String)) (ppn : Nat)
    (output_dir : List String) (timelimit : Nat) (random_data : Bool)
    (test : Bool) (stdout stderr : Option StreamDest)
    (kwargs : List (String × KwVal)) (cfg : ToolConfig) :
    Except Err LauncherState :=
  match hosts with
  | none => .error .typeError
  | some hs =>
    let st := applyInitArgs
      (baseInit .ior (some hs) ppn output_dir timelimit random_data test
        stdout stderr kwargs) cfg
    .ok { st with
      prepend_cmdline :=
        [mpirun, "-N", toString hs.length, "-n", toString (hs.length * ppn)] }

/-- Model of `MdworkbenchLauncher.__init__` (lines 392-401). -/
def mkMdworkbench (mpirun : String) (hosts : Option (List String)) (ppn : Nat)
    (output_dir : List String) (timelimit : Nat) (random_data : Bool)
    (test : Bool) (stdout stderr : Option StreamDest)
    (kwargs : List (String × KwVal)) (cfg : ToolConfig) :
    Except Err LauncherState :=
  match hosts with
  | none => .error .typeError
  | some hs =>
    let st := applyInitArgs
      (baseInit .mdworkbench (some hs) ppn output_dir timelimit random_data
        test stdout stderr kwargs) cfg
    .ok { st with
      prepend_cmdline :=
        [mpirun, "-N", toString hs.length, "-n", toString (hs.length * ppn)] }

/-- Lines 153-156 of `_prep_cmdline`: reset the scratch buffer, seed it
with the launcher-prefix fragment (when present) and append the binary. -/
def prep_start (st : LauncherState) : LauncherState :=
  { st with cmdline := st.prepend_cmdline ++ [st.binary] }

/-- Model of `_add_hosts`, per adapter: `ElbenchoLauncher._add_hosts` (lines
294-299) appends `--hosts a,b,c`; `IorLauncher`/`MdworkbenchLauncher`
(lines 378-384, 403-409) insert `--nodelist a,b,c` right after the
distributed-launcher binary, raising `ValueError` when the first token of
the command line is not that binary. -/
def add_hosts (mpirun : String) (st : LauncherState) :
    Except Err LauncherState :=
  match st.variant with
  | .elbencho =>
    match st.hosts with
    | none => .ok st
    | some hs =>
      .ok { st with cmdline := st.cmdline ++ ["--hosts", joinWith "," hs] }
  | .ior | .mdworkbench =>
    match st.hosts with
    | none => .ok st
    | some hs =>
      match st.cmdline with
      | [] => .error .indexError
      | c0 :: rest =>
        if c0 = mpirun then
          .ok { st with cmdline := c0 :: "--nodelist" :: joinWith "," hs :: rest }
        else
          .error (.valueError ("Can't find " ++ mpirun ++ " to insert nodelist"))

/-- Model of `_add_timelimit` (lines 126-130). -/
def add_timelimit (st : LauncherState) : LauncherState :=
  if st.timelimit ≠ 0 then
    { st with cmdline := st.cmdline ++ st.timelimit_args ++ [toString st.timelimit] }
  else st

/-- Model of `_add_random_data` (lines 137-140). -/
def add_random_data (st : LauncherState) : LauncherState :=
  if st.random_data then
    { st with cmdline := st.cmdline ++ st.random_data_args }
  else st

/-- Model of `_add_results_file`: a no-op in the base class (line 144), overridden
only by `ElbenchoLauncher` (lines 305-313), which derives `--resfile` /
`--csvfile` (and optionally `--livecsv`) flags from the current stdout
destination when it is a file object naming an existing regular file.
`fs name` models `os.path.isfile(name)`. -/
def add_results_file (fs : String → Bool) (st : LauncherState) :
    LauncherState :=
  match st.variant with
  | .elbencho =>
    match st.stdout with
    | some (.file name) =>
      if fs name then
        { st with cmdline := st.cmdline
            ++ ["--resfile", name ++ ".results", "--csvfile", name ++ ".csv"]
            ++ (if st.livecsv then ["--livecsv", name ++ ".live.csv"] else []) }
      else st
    | _ => st
  | _ => st

/-- Model of `_add_output_dir`, per adapter: `ElbenchoLauncher` (lines 301-303)
appends every directory; `IorLauncher` / `MdworkbenchLauncher` (lines
386-389, 411-413) emit `-o` with only the first directory. -/
def add_output_dir (st : LauncherState) : LauncherState :=
  match st.variant with
  | .elbencho =>
    if st.output_dir ≠ [] then
      { st with cmdline := st.cmdline ++ st.output_dir }
    else st
  | .ior | .mdworkbench =>
    match st.output_dir with
    | [] => st
    | d :: _ => { st with cmdline := st.cmdline ++ ["-o", d] }

/-- Lines 166-171: emit the extra `**kwargs` flags in dict order; a `bool`
that is true becomes a bare `--key`, anything else becomes `--key str(val)`
(so a false `bool` becomes `--key False`). -/
def kwargsArgs (kwargs : List (String × KwVal)) : List String :=
  kwargs.flatMap (fun kv =>
    match kv.2 with
    | .bool true => ["--" ++ kv.1]
    | .bool false => ["--" ++ kv.1, "False"]
    | .str s => ["--" ++ kv.1, s])

/-- Model of `_prep_cmdline` (lines 146-173): rebuild the scratch command line from
scratch for the given access mode and pattern.  An access or pattern key
absent from the configuration-derived tables raises `KeyError`. -/
def prep_cmdline (mpirun : String) (fs : String → Bool) (st : LauncherState)
    (access pattern : String) : Except Err LauncherState :=
  match add_hosts mpirun (prep_start st) with
  | .error e => .error e
  | .ok st =>
    let st := add_timelimit st
    let st := add_random_data st
    let st := add_results_file fs st
    let st := { st with cmdline := st.cmdline ++ st.common_args }
    match dictGet st.access_args access with
    | none => .error (.keyError access)
    | some aargs =>
      let st := { st with cmdline := st.cmdline ++ aargs }
      match dictGet st.pattern_args pattern with
      | none => .error (.keyError pattern)
      | some pargs =>
        let st := { st with cmdline := st.cmdline ++ pargs }
        let apargs := ((dictGet st.access_pattern_args access).map
          (fun m => (dictGet m pattern).getD [])).getD []
        let st := { st with cmdline := st.cmdline ++ apargs }
        let st := { st with cmdline := st.cmdline ++ kwargsArgs st.kwargs }
        .ok (add_output_dir st)

/-- The observable side effects of one launcher method call: the
subprocesses it spawned (in order) and the `logger.info` lines it wrote.
(`logger.debug` lines, reached only outside dry-run mode at lines 261-269,
are not modelled.) -/
structure Effects where
  launched : List Proc
  log : List String
deriving DecidableEq, Repr

/-- Result of one preflight/run/teardown call: effects, plus either an
exception or the updated launcher state together with the (optional)
returned process handle. -/
structure PhaseOut where
  eff : Effects
  res : Except Err (LauncherState × Option Proc)
deriving DecidableEq

/-- Model of `BenchmarkLauncher.run` (lines 230-278): merge extra kwargs into the
retained `_kwargs` dict, rebuild the command line, log it, and in dry-run
mode stop there; otherwise spawn the subprocess (stdout/stderr resolved
from the sentinel default to the launcher's own destinations), clear the
scratch buffer and return the handle.  `stdoutArg`/`stderrArg` are `none`
for the `-94720` sentinel and `some d` for an explicit destination. -/
def run (mpirun : String) (fs : String → Bool) (st : LauncherState)
    (access pattern : String)
    (stdoutArg stderrArg : Option (Option StreamDest))
    (kwargs : List (String × KwVal)) : PhaseOut :=
  let st := { st with kwargs := dictUpdate st.kwargs kwargs }
  match prep_cmdline mpirun fs st access pattern with
  | .error e => ⟨⟨[], []⟩, .error e⟩
  | .ok st =>
    let logLine := "Executing: " ++ joinWith " " st.cmdline
    if st.test then
      ⟨⟨[], [logLine]⟩, .ok (st, none)⟩
    else
      let out := stdoutArg.getD st.stdout
      let err := stderrArg.getD st.stderr
      let proc : Proc := ⟨st.cmdline, out, err⟩
      ⟨⟨[proc], [logLine]⟩, .ok ({ st with cmdline := [] }, some proc)⟩

/-- Model of `preflight` per adapter: the base-class no-op (lines 214-220,
inherited by `IorLauncher`); `ElbenchoLauncher.preflight` (lines 322-340),
which starts the background `--service` and deliberately returns no
handle; and `MdworkbenchLauncher.preflight` (lines 415-432), which runs
the `-1` setup phase and returns its handle. -/
def preflight (mpirun : String) (st : LauncherState) : PhaseOut :=
  match st.variant with
  | .ior => ⟨⟨[], []⟩, .ok (st, none)⟩
  | .elbencho =>
    match st.hosts with
    | none => ⟨⟨[], ["Launching preflight"]⟩, .error .typeError⟩
    | some hs =>
      let cmd := [mpirun, "-N", toString hs.length, "-n", toString hs.length,
        "--nodelist", joinWith "," hs, st.binary, "--service", "--foreground"]
      let st := { st with cmdline := cmd }
      let log := ["Launching preflight", joinWith " " cmd]
      if st.test then ⟨⟨[], log⟩, .ok (st, none)⟩
      else
        ⟨⟨[⟨cmd, some .pipe, some .pipe⟩], log⟩,
          .ok ({ st with cmdline := [] }, none)⟩
  | .mdworkbench =>
    match st.hosts with
    | none => ⟨⟨[], ["Launching preflight"]⟩, .error .typeError⟩
    | some hs =>
      let cmd := [mpirun, "-N", toString hs.length, "-n", toString hs.length,
        "--nodelist", joinWith "," hs, st.binary, "-1"] ++ st.common_args
      let st := { st with cmdline := cmd }
      let log := ["Launching preflight", joinWith " " cmd]
      if st.test then ⟨⟨[], log⟩, .ok (st, none)⟩
      else
        let p : Proc := ⟨cmd, some .pipe, some .pipe⟩
        ⟨⟨[p], log⟩, .ok ({ st with cmdline := [] }, some p)⟩

/-- Model of `teardown` per adapter: the base-class no-op (lines 222-228, inherited
by `IorLauncher`); `ElbenchoLauncher.teardown` (lines 342-364), which runs
a `clean` pass with stdout/stderr temporarily cleared so the results files
survive, restores them, then issues `--quit`; and
`MdworkbenchLauncher.teardown` (lines 434-452), which runs the `-3`
cleanup phase.  (`time.sleep` settle delays and blocking `proc.wait()`
calls have no effect on launcher state and are not modelled.) -/
def teardown (mpirun : String) (fs : String → Bool) (st : LauncherState)
    (_access pattern : String) (kwargs : List (String × KwVal)) : PhaseOut :=
  match st.variant with
  | .ior => ⟨⟨[], []⟩, .ok (st, none)⟩
  | .elbencho =>
    let log0 := ["Launching teardown - file cleanup"]
    let savedOut := st.stdout
    let savedErr := st.stderr
    let st := { st with stdout := none, stderr := none }
    let r := run mpirun fs st "clean" pattern (some (some .pipe))
      (some (some .pipe)) kwargs
    match r.res with
    | .error e => ⟨⟨r.eff.launched, log0 ++ r.eff.log⟩, .error e⟩
    | .ok (st, _cleanProc) =>
      let st := { st with stdout := savedOut, stderr := savedErr }
      let log1 := ["Launching teardown - service shutdown"]
      let st := { st with cmdline := [st.binary, "--quit"] }
      match add_hosts mpirun st with
      | .error e =>
        ⟨⟨r.eff.launched, log0 ++ r.eff.log ++ log1⟩, .error e⟩
      | .ok st =>
        let logAll := log0 ++ r.eff.log ++ log1 ++ [joinWith " " st.cmdline]
        if st.test then ⟨⟨r.eff.launched, logAll⟩, .ok (st, none)⟩
        else
          let p : Proc := ⟨st.cmdline, some .pipe, some .pipe⟩
          ⟨⟨r.eff.launched ++ [p], logAll⟩,
            .ok ({ st with cmdline := [] }, some p)⟩
  | .mdworkbench =>
    match st.hosts with
    | none => ⟨⟨[], ["Launching teardown - file cleanup"]⟩, .error .typeError⟩
    | some hs =>
      let cmd := [mpirun, "-N", toString hs.length, "-n", toString hs.length,
        "--nodelist", joinWith "," hs, st.binary, "-3"] ++ st.common_args
      let st := { st with cmdline := cmd }
      let log := ["Launching teardown - file cleanup", joinWith " " cmd]
      if st.test then ⟨⟨[], log⟩, .ok (st, none)⟩
      else
        let p : Proc := ⟨cmd, some .pipe, some .pipe⟩
        ⟨⟨[p], log⟩, .ok ({ st with cmdline := [] }, some p)⟩

/-- All launcher fields except the scratch command-line buffer. -/
def core (st : LauncherState) : LauncherState := { st with cmdline := [] }

/-- Project the updated launcher state out of a phase result (with a
fallback for the exception case). -/
def stateAfter (r : PhaseOut) (d : LauncherState) : LauncherState :=
  match r.res with
  | .ok (st, _) => st
  | .error _ => d

/-- Project the returned process handle out of a phase result. -/
def handleOf (r : PhaseOut) : Option Proc :=
  match r.res with
  | .ok (_, h) => h
  | .error _ => none

/-! ## Scheduler (`run_launchers`, lines 473-519)

`run_launchers` drives a list of workload descriptors through a serial
preflight loop, a concurrent run phase executed by
`multiprocessing.pool.ThreadPool(len(workloads)).starmap`, a settle sleep,
and a serial teardown loop.  It is modelled abstractly over descriptors
that record whether each phase returns a blocking handle; the call
pattern becomes an event trace, with the run phase an arbitrary
interleaving (over all thread schedules) of the per-worker traces. -/

/-- What the scheduler observes of one workload descriptor: whether each
launcher phase returns a process handle to wait on. -/
structure SchedWorkload where
  preflightHandle : Bool
  runHandle : Bool
  teardownHandle : Bool
deriving DecidableEq, Repr

/-- Scheduler-level events, indexed by the workload's position in the
input list. -/
inductive Event
  | preflightCall (i : Nat)
  | preflightWait (i : Nat)
  | workerSleep (i : Nat)
  | runCall (i : Nat)
  | runWait (i : Nat)
  | settle
  | teardownCall (i : Nat)
  | teardownWait (i : Nat)
deriving DecidableEq, Repr

/-- Lines 503-506: one preflight-loop iteration — call preflight, and wait
on the returned handle when there is one. -/
def pflEvents (i : Nat) (w : SchedWorkload) : List Event :=
  Event.preflightCall i ::
    (if w.preflightHandle then [Event.preflightWait i] else [])

/-- Model of `_run_and_wait_after_delay` (lines 464-471) for worker `i`: sleep the
staggered delay, invoke run, and block on the returned handle if any. -/
def runEvents (i : Nat) (w : SchedWorkload) : List Event :=
  Event.workerSleep i :: Event.runCall i ::
    (if w.runHandle then [Event.runWait i] else [])

/-- Lines 514-517: one teardown-loop iteration. -/
def tdEvents (i : Nat) (w : SchedWorkload) : List Event :=
  Event.teardownCall i ::
    (if w.teardownHandle then [Event.teardownWait i] else [])

/-- Concatenated trace of a serial loop over the descriptors, numbering
them from `i`. -/
def phaseTrace (f : Nat → SchedWorkload → List Event) :
    Nat → List SchedWorkload → List Event
  | _, [] => []
  | i, w :: ws => f i w ++ phaseTrace f (i + 1) ws

/-- The per-worker traces handed to the thread pool, numbered from `i`. -/
def workerTraces : Nat → List SchedWorkload → List (List Event)
  | _, [] => []
  | i, w :: ws => runEvents i w :: workerTraces (i + 1) ws

/-- One thread-pool schedule: at each step, pick (by index) which worker
runs its next event.  Invalid or exhausted picks are skipped, and any
events left when the schedule runs out happen afterwards in worker order,
so every schedule yields a complete interleaving. -/
def interleave {α : Type} : List Nat → List (List α) → List α
  | [], trs => trs.flatten
  | s :: rest, trs =>
    match trs.get? s with
    | some (e :: es) => e :: interleave rest (trs.set s es)
    | some [] => interleave rest trs
    | none => interleave rest trs

/-- The complete event trace of one (successful) `run_launchers` call
under thread schedule `sched`: serial preflights, the interleaved
concurrent run phase, the settle sleep of line 511, then serial
teardowns. -/
def schedTrace (ws : List SchedWorkload) (sched : List Nat) : List Event :=
  phaseTrace pflEvents 0 ws
    ++ (interleave sched (workerTraces 0 ws)
      ++ (Event.settle :: phaseTrace tdEvents 0 ws))

/-- Model of `run_launchers` at the event level.  With an empty descriptor list the
preflight loop does nothing and `ThreadPool(0)` (line 509) raises
`ValueError("Number of processes must be at least 1")`, so the call never
returns. -/
def run_launchers_trace (ws : List SchedWorkload) (sched : List Nat) :
    Except Err (List Event) :=
  if ws.length = 0 then
    .error (.valueError "Number of processes must be at least 1")
  else .ok (schedTrace ws sched)

/-- The value `run_launchers` returns (line 510 and 519): `pool.starmap`
applies `_run_and_wait_after_delay` to `(workload, delay * idx)` in input
order and returns the per-worker `(time0, timef)` results in that same
order; `measure w d` abstracts the wall-clock pair worker `(w, d)`
records. -/
def run_launchers_results (measure : SchedWorkload → Nat → Int × Int)
    (delay : Nat) (ws : List SchedWorkload) : List (Int × Int) :=
  ws.enum.map (fun iw => measure iw.2 (delay * iw.1))

/-! ## Interference driver (`run_interference` / `run_symmetric_interference`) -/

/-- The two roles a workload descriptor can play. -/
inductive WhichWorkload
  | primary
  | secondary
deriving DecidableEq, Repr

/-- ASCII lowercasing, modelling `str.lower()` for the selector strings
at hand. -/
def strLower (s : String) : String := String.mk (s.data.map Char.toLower)

/-- Lines 618-627 of `run_interference`: reduce the isolation selector to
its lowercased first character (`IndexError` on the empty string) and map
`b`/`p`/`s` to the isolated runs; anything else raises the `ValueError`
that names the legal values. -/
def parse_isolate (isolate : String) : Except Err (List WhichWorkload) :=
  match (strLower isolate).data with
  | [] => .error .indexError
  | c :: _ =>
    if c = 'b' then .ok [.primary, .secondary]
    else if c = 'p' then .ok [.primary]
    else if c = 's' then .ok [.secondary]
    else .error (.valueError "isolate must be one of: primary secondary both")

/-- A workload descriptor dict (see the docstrings at lines 482-488 and
527-533) with the metadata fields the drivers add as it is mutated. -/
structure Workload where
  launcher : LauncherState
  access : String
  pattern : String
  role : String
  jobid : Option String := none
  nnodes : Option Nat := none
deriving DecidableEq, Repr

/-- The label-initialisation loop shared by both drivers (lines 547-549,
630-632): stamp each descriptor with the job id and its launcher's host
count.  `len(launcher.get_hosts())` raises `TypeError` when the launcher
was built with `hosts=None`. -/
def initLabels (jobid : String) : List Workload → Except Err (List Workload)
  | [] => .ok []
  | w :: ws =>
    match w.launcher.hosts with
    | none => .error .typeError
    | some hs =>
      (initLabels jobid ws).map
        (fun rest => { w with jobid := some jobid, nnodes := some hs.length } :: rest)

/-- The prefix of `run_symmetric_interference` (lines 543-552) up to and
including its arity check: initialise the labels, then reject more than
two workloads with `NotImplementedError`; on success the function
proceeds to the quiet/noisy phases with the returned descriptors. -/
def run_symmetric_guard (jobid : String) (ws : List Workload) :
    Except Err (List Workload) :=
  match initLabels jobid ws with
  | .error e => .error e
  | .ok ws2 =>
    if ws.length > 2 then
      .error (.notImplemented "more than two workloads provided")
    else .ok ws2

/-! ## Derived loss report (`interference_summary.py`, lines 48-64)

The performance pivot handed to `loss_frame` is a pandas frame: a shared
column index of `(contention, workload_id)` pairs, and per node-count-pair
rows of float cells, where a cell can be `NaN` (pandas' marker for a
missing mean).  `row.loc[key]` raises `KeyError` exactly when `key` is
absent from the column index; a present column always yields a cell,
possibly `NaN`.  Floats are modelled as `PVal`: exact rationals plus a
`NaN` that propagates through the arithmetic used here (the inputs the
claims exercise keep all values finite; a zero quiet value, which numpy
would turn into an infinity, does not occur in them and is mapped to
`nan`). -/

/-- A float cell: a finite value or `NaN`. -/
inductive PVal
  | nan
  | val (q : ℚ)
deriving DecidableEq, Repr

/-- Float subtraction with `NaN` propagation. -/
def PVal.sub : PVal → PVal → PVal
  | .val a, .val b => .val (a - b)
  | _, _ => .nan

/-- Float multiplication with `NaN` propagation. -/
def PVal.mul : PVal → PVal → PVal
  | .val a, .val b => .val (a * b)
  | _, _ => .nan

/-- Float division with `NaN` propagation. -/
def PVal.div : PVal → PVal → PVal
  | .val a, .val b => if b = 0 then .nan else .val (a / b)
  | _, _ => .nan

/-- A performance pivot: the column index shared by all rows, and one row
of cells per `(primary_nodes, secondary_nodes)` pair. -/
structure PerfFrame where
  columns : List (String × String)
  rows : List ((Nat × Nat) × List PVal)
deriving DecidableEq, Repr

/-- Model of `row.loc[(contention, workload_id)]`: look the label up in the
column index and return the aligned cell; `none` models the `KeyError`
for a label absent from the column index. -/
def rowLoc : List (String × String) → List PVal → (String × String) →
    Option PVal
  | [], _, _ => none
  | _ :: _, [], _ => none
  | c :: cs, v :: vs, key => if c = key then some v else rowLoc cs vs key

/-- Lines 52-57: the loss entry for one workload in one row —
`(quiet - noisy) * (100.0 / quiet)`, with a `KeyError` from either
lookup suppressing the entry entirely. -/
def lossEntry (cols : List (String × String)) (vals : List PVal)
    (w : String) : Option PVal :=
  match rowLoc cols vals ("quiet", w), rowLoc cols vals ("noisy", w) with
  | some q, some n => some (PVal.mul (PVal.sub q n) (PVal.div (PVal.val 100) q))
  | _, _ => none

/-- The loss dict built for one row, iterating `"primary", "secondary"`
in order. -/
def lossRow (cols : List (String × String)) (vals : List PVal) :
    List (String × PVal) :=
  ["primary", "secondary"].filterMap
    (fun w => (lossEntry cols vals w).map (fun v => (w, v)))

/-- Model of `loss_frame` (lines 48-64): collect the non-empty loss dicts (line
58-59) and attach them to the pivot's row index via
`DataFrame.from_records(losses, index=performance.index)`, which raises a
length-mismatch `ValueError` when rows were skipped.  (For a well-formed
pivot the dicts are homogeneous — a `KeyError` is a property of the whole
column — so either every row is kept or every row is skipped.) -/
def loss_frame (perf : PerfFrame) :
    Except Err (List ((Nat × Nat) × List (String × PVal))) :=
  let losses := (perf.rows.map (fun r => lossRow perf.columns r.2)).filter
    (fun l => l ≠ [])
  if losses.length = perf.rows.length then
    .ok (List.zip (perf.rows.map (fun r => r.1)) losses)
  else .error (.valueError "Length of values does not match length of index")

/-! ## Helper lemmas: the assembly steps only touch the scratch buffer -/

theorem core_add_timelimit (s : LauncherState) :
    core (add_timelimit s) = core s := by
  unfold add_timelimit; split <;> rfl

theorem core_add_random_data (s : LauncherState) :
    core (add_random_data s) = core s := by
  unfold add_random_data; split <;> rfl

theorem core_add_results_file (fs : String → Bool) (s : LauncherState) :
    core (add_results_file fs s) = core s := by
  unfold add_results_file
  repeat' split
  all_goals rfl

theorem core_add_output_dir (s : LauncherState) :
    core (add_output_dir s) = core s := by
  unfold add_output_dir
  repeat' split
  all_goals rfl

theorem core_add_hosts {mp : String} {s s1 : LauncherState}
    (h : add_hosts mp s = .ok s1) : core s1 = core s := by
  unfold add_hosts at h
  repeat' split at h
  all_goals first
    | (injection h with h; subst h; rfl)
    | exact absurd h (by simp)

theorem core_prep_start (s : LauncherState) : core (prep_start s) = core s := rfl

theorem prep_core {mp : String} {fs : String → Bool} {s s1 : LauncherState}
    {a p : String} (h : prep_cmdline mp fs s a p = .ok s1) :
    core s1 = core s := by
  unfold prep_cmdline at h
  cases hh : add_hosts mp (prep_start s) with
  | error e => rw [hh] at h; exact absurd h (by simp)
  | ok s2 =>
    rw [hh] at h
    have hc2 : core s2 = core s := (core_add_hosts hh).trans (core_prep_start s)
    dsimp only at h
    cases hA : dictGet
        ((add_results_file fs (add_random_data (add_timelimit s2))).access_args) a with
    | none => rw [hA] at h; exact absurd h (by simp)
    | some aargs =>
      rw [hA] at h
      dsimp only at h
      cases hP : dictGet
          ((add_results_file fs (add_random_data (add_timelimit s2))).pattern_args) p with
      | none => rw [hP] at h; exact absurd h (by simp)
      | some pargs =>
        rw [hP] at h
        dsimp only at h
        injection h with h
        subst h
        rw [core_add_output_dir]
        show core (add_results_file fs (add_random_data (add_timelimit s2))) = core s
        rw [core_add_results_file, core_add_random_data, core_add_timelimit]
        exact hc2

theorem access_args_add_timelimit (s : LauncherState) :
    (add_timelimit s).access_args = s.access_args := by
  unfold add_timelimit; split <;> rfl

theorem access_args_add_random_data (s : LauncherState) :
    (add_random_data s).access_args = s.access_args := by
  unfold add_random_data; split <;> rfl

theorem access_args_add_results_file (fs : String → Bool) (s : LauncherState) :
    (add_results_file fs s).access_args = s.access_args := by
  unfold add_results_file
  repeat' split
  all_goals rfl

theorem pattern_args_add_timelimit (s : LauncherState) :
    (add_timelimit s).pattern_args = s.pattern_args := by
  unfold add_timelimit; split <;> rfl

theorem pattern_args_add_random_data (s : LauncherState) :
    (add_random_data s).pattern_args = s.pattern_args := by
  unfold add_random_data; split <;> rfl

theorem pattern_args_add_results_file (fs : String → Bool) (s : LauncherState) :
    (add_results_file fs s).pattern_args = s.pattern_args := by
  unfold add_results_file
  repeat' split
  all_goals rfl

theorem core_eq_access_args {s1 s2 : LauncherState} (h : core s1 = core s2) :
    s1.access_args = s2.access_args := by
  have hh := congrArg LauncherState.access_args h
  exact hh

theorem core_eq_pattern_args {s1 s2 : LauncherState} (h : core s1 = core s2) :
    s1.pattern_args = s2.pattern_args := by
  have hh := congrArg LauncherState.pattern_args h
  exact hh

theorem core_eq_test {s1 s2 : LauncherState} (h : core s1 = core s2) :
    s1.test = s2.test := by
  have hh := congrArg LauncherState.test h
  exact hh

theorem core_eq_stdout {s1 s2 : LauncherState} (h : core s1 = core s2) :
    s1.stdout = s2.stdout := by
  have hh := congrArg LauncherState.stdout h
  exact hh

theorem core_eq_stderr {s1 s2 : LauncherState} (h : core s1 = core s2) :
    s1.stderr = s2.stderr := by
  have hh := congrArg LauncherState.stderr h
  exact hh

theorem core_eq_kwargs {s1 s2 : LauncherState} (h : core s1 = core s2) :
    s1.kwargs = s2.kwargs := by
  have hh := congrArg LauncherState.kwargs h
  exact hh

/-- A state is determined by its core and its scratch buffer. -/
theorem eq_setCmd_of_core_eq {s1 s2 : LauncherState} (h : core s1 = core s2) :
    s1 = { s2 with cmdline := s1.cmdline } := by
  cases s1; cases s2
  simp only [core, LauncherState.mk.injEq] at h ⊢
  simp_all

/-- Lemma: `_prep_cmdline` never reads the previous scratch buffer: the very
first thing it does (line 153) is overwrite it. -/
theorem prep_cmdline_ignores_cmdline (mp : String) (fs : String → Bool)
    (s : LauncherState) (c : List String) (a p : String) :
    prep_cmdline mp fs { s with cmdline := c } a p = prep_cmdline mp fs s a p := rfl

/-- Lemma: `run` never reads the previous scratch buffer either. -/
theorem run_ignores_cmdline (mp : String) (fs : String → Bool)
    (s : LauncherState) (c : List String) (a p : String)
    (sa se : Option (Option StreamDest)) (kw : List (String × KwVal)) :
    run mp fs { s with cmdline := c } a p sa se kw = run mp fs s a p sa se kw := rfl

/-- Two launchers that agree on everything but the scratch buffer behave
identically under `run`. -/
theorem run_respects_core {s1 s2 : LauncherState} (h : core s1 = core s2)
    (mp : String) (fs : String → Bool) (a p : String)
    (sa se : Option (Option StreamDest)) (kw : List (String × KwVal)) :
    run mp fs s1 a p sa se kw = run mp fs s2 a p sa se kw := by
  rw [eq_setCmd_of_core_eq h, run_ignores_cmdline]

/-- The state returned by a successful `run` call differs from the input
state (with the extra kwargs merged in) only in the scratch buffer. -/
theorem run_core {mp : String} {fs : String → Bool} {s : LauncherState}
    {a p : String} {sa se : Option (Option StreamDest)}
    {kw : List (String × KwVal)} {s1 : LauncherState} {h1 : Option Proc}
    (h : (run mp fs s a p sa se kw).res = .ok (s1, h1)) :
    core s1 = core { s with kwargs := dictUpdate s.kwargs kw } := by
  unfold run at h
  dsimp only at h
  cases hp : prep_cmdline mp fs { s with kwargs := dictUpdate s.kwargs kw } a p with
  | error e => rw [hp] at h; exact absurd h (by simp)
  | ok s2 =>
    rw [hp] at h
    have hc := prep_core hp
    dsimp only at h
    by_cases ht : s2.test
    · rw [if_pos ht] at h
      dsimp only at h
      injection h with h
      have hs : s2 = s1 := congrArg Prod.fst h
      subst hs
      exact hc
    · rw [if_neg ht] at h
      dsimp only at h
      injection h with h
      have hs : ({ s2 with cmdline := [] } : LauncherState) = s1 := congrArg Prod.fst h
      subst hs
      exact hc

/-- The host-enumeration step of assembly succeeds: trivially for the
inline-hosts adapter, and for the launcher-prefixed adapters because the
prefix fragment built by their constructors starts with the distributed
launcher binary (or because there are no hosts).  Every state produced by
`mkElbencho` / `mkIor` / `mkMdworkbench` satisfies this. -/
def addHostsOK (mp : String) (st : LauncherState) : Prop :=
  st.variant = Variant.elbencho ∨ st.hosts = none ∨
    (st.prepend_cmdline ++ [st.binary]).head? = some mp

instance (mp : String) (st : LauncherState) : Decidable (addHostsOK mp st) := by
  unfold addHostsOK
  infer_instance

theorem add_hosts_ok_of_addHostsOK {mp : String} {s : LauncherState}
    (h : addHostsOK mp s) :
    (add_hosts mp (prep_start s)).isOk = true := by
  obtain ⟨vr, bin, hosts, ppn, odir, tl, tla, rd, rda, tst, kws, cl, ca, aa,
    pa, apa, pc, so, ser, lc⟩ := s
  unfold addHostsOK at h
  unfold add_hosts prep_start
  dsimp only at h ⊢
  cases vr with
  | elbencho => cases hosts <;> rfl
  | ior =>
    cases hosts with
    | none => rfl
    | some hs =>
      rcases h with h | h | h
      · exact absurd h (by simp)
      · exact absurd h (by simp)
      · cases pc with
        | nil =>
          simp only [List.nil_append, List.head?, Option.some.injEq] at h
          subst h
          simp only [List.nil_append]
          simp [Except.isOk, Except.toBool]
        | cons c t =>
          simp only [List.cons_append, List.head?, Option.some.injEq] at h
          subst h
          simp only [List.cons_append]
          simp [Except.isOk, Except.toBool]
  | mdworkbench =>
    cases hosts with
    | none => rfl
    | some hs =>
      rcases h with h | h | h
      · exact absurd h (by simp)
      · exact absurd h (by simp)
      · cases pc with
        | nil =>
          simp only [List.nil_append, List.head?, Option.some.injEq] at h
          subst h
          simp only [List.nil_append]
          simp [Except.isOk, Except.toBool]
        | cons c t =>
          simp only [List.cons_append, List.head?, Option.some.injEq] at h
          subst h
          simp only [List.cons_append]
          simp [Except.isOk, Except.toBool]

theorem prep_error_access {mp : String} {fs : String → Bool}
    {s : LauncherState} {a : String} (p : String)
    (hok : addHostsOK mp s) (hA : dictGet s.access_args a = none) :
    prep_cmdline mp fs s a p = .error (.keyError a) := by
  have hok2 := add_hosts_ok_of_addHostsOK hok
  cases hh : add_hosts mp (prep_start s) with
  | error e =>
    rw [hh] at hok2
    exact absurd hok2 (by simp [Except.isOk, Except.toBool])
  | ok s1 =>
    have hacc : (add_results_file fs (add_random_data (add_timelimit s1))).access_args
        = s.access_args := by
      rw [access_args_add_results_file, access_args_add_random_data,
        access_args_add_timelimit]
      exact core_eq_access_args ((core_add_hosts hh).trans (core_prep_start s))
    unfold prep_cmdline
    rw [hh]
    dsimp only
    rw [hacc, hA]

theorem prep_error_pattern {mp : String} {fs : String → Bool}
    {s : LauncherState} {a p : String} {aargs : List String}
    (hok : addHostsOK mp s) (hA : dictGet s.access_args a = some aargs)
    (hP : dictGet s.pattern_args p = none) :
    prep_cmdline mp fs s a p = .error (.keyError p) := by
  have hok2 := add_hosts_ok_of_addHostsOK hok
  cases hh : add_hosts mp (prep_start s) with
  | error e =>
    rw [hh] at hok2
    exact absurd hok2 (by simp [Except.isOk, Except.toBool])
  | ok s1 =>
    have hco : core s1 = core s := (core_add_hosts hh).trans (core_prep_start s)
    have hacc : (add_results_file fs (add_random_data (add_timelimit s1))).access_args
        = s.access_args := by
      rw [access_args_add_results_file, access_args_add_random_data,
        access_args_add_timelimit]
      exact core_eq_access_args hco
    have hpat : (add_results_file fs (add_random_data (add_timelimit s1))).pattern_args
        = s.pattern_args := by
      rw [pattern_args_add_results_file, pattern_args_add_random_data,
        pattern_args_add_timelimit]
      exact core_eq_pattern_args hco
    unfold prep_cmdline
    rw [hh]
    dsimp only
    rw [hacc, hA]
    dsimp only
    rw [hpat, hP]

theorem run_error_of_access_none {mp : String} {fs : String → Bool}
    {s : LauncherState} {a : String} (p : String)
    (sa se : Option (Option StreamDest)) (kw : List (String × KwVal))
    (hok : addHostsOK mp s) (hA : dictGet s.access_args a = none) :
    run mp fs s a p sa se kw = ⟨⟨[], []⟩, .error (.keyError a)⟩ := by
  unfold run
  dsimp only
  rw [prep_error_access (s := { s with kwargs := dictUpdate s.kwargs kw })
    p hok hA]

theorem run_error_of_pattern_none {mp : String} {fs : String → Bool}
    {s : LauncherState} {a p : String} {aargs : List String}
    (sa se : Option (Option StreamDest)) (kw : List (String × KwVal))
    (hok : addHostsOK mp s) (hA : dictGet s.access_args a = some aargs)
    (hP : dictGet s.pattern_args p = none) :
    run mp fs s a p sa se kw = ⟨⟨[], []⟩, .error (.keyError p)⟩ := by
  unfold run
  dsimp only
  rw [prep_error_pattern (s := { s with kwargs := dictUpdate s.kwargs kw })
    hok hA hP]

/-- Dry-run `run`: no subprocess, no handle, and the assembled command
line is logged. -/
theorem run_dry {mp : String} {fs : String → Bool} {s : LauncherState}
    {a p : String} {sa se : Option (Option StreamDest)}
    {kw : List (String × KwVal)} (ht : s.test = true) :
    (run mp fs s a p sa se kw).eff.launched = [] ∧
    ∀ s1 h1, (run mp fs s a p sa se kw).res = .ok (s1, h1) →
      h1 = none ∧ s1.test = true ∧
      (run mp fs s a p sa se kw).eff.log =
        ["Executing: " ++ joinWith " " s1.cmdline] := by
  unfold run
  dsimp only
  cases hp : prep_cmdline mp fs { s with kwargs := dictUpdate s.kwargs kw } a p with
  | error e =>
    refine ⟨rfl, ?_⟩
    intro s1 h1 h
    exact absurd h (by simp)
  | ok s2 =>
    have ht2 : s2.test = true := by
      have hh := core_eq_test (prep_core hp)
      rw [hh]
      exact ht
    dsimp only
    rw [if_pos ht2]
    refine ⟨rfl, ?_⟩
    intro s1 h1 h
    dsimp only at h
    injection h with h
    have hs : s2 = s1 := congrArg Prod.fst h
    have hh1 : (none : Option Proc) = h1 := congrArg Prod.snd h
    subst hs
    subst hh1
    exact ⟨rfl, ht2, rfl⟩

/-! ## Scheduler lemmas -/

def isPreflightCall : Event → Bool
  | .preflightCall _ => true
  | _ => false

def isRunCall : Event → Bool
  | .runCall _ => true
  | _ => false

def isTeardownCall : Event → Bool
  | .teardownCall _ => true
  | _ => false

/-- Preflight-phase events: the call and the wait on its handle. -/
def isPreflightEv : Event → Bool
  | .preflightCall _ => true
  | .preflightWait _ => true
  | _ => false

/-- Run-phase events: a worker's stagger sleep, its run call, and its wait. -/
def isRunEv : Event → Bool
  | .workerSleep _ => true
  | .runCall _ => true
  | .runWait _ => true
  | _ => false

/-- Teardown-phase events: the call and the wait on its handle. -/
def isTeardownEv : Event → Bool
  | .teardownCall _ => true
  | .teardownWait _ => true
  | _ => false

theorem mem_pflEvents_kind {e : Event} {i : Nat} {w : SchedWorkload}
    (h : e ∈ pflEvents i w) :
    isPreflightEv e = true ∧ isRunCall e = false ∧ isRunEv e = false ∧
      isTeardownCall e = false ∧ isTeardownEv e = false := by
  cases hw : w.preflightHandle <;> rw [pflEvents, hw] at h <;> simp at h
  · subst h; exact ⟨rfl, rfl, rfl, rfl, rfl⟩
  · rcases h with rfl | rfl <;> exact ⟨rfl, rfl, rfl, rfl, rfl⟩

theorem mem_runEvents_kind {e : Event} {i : Nat} {w : SchedWorkload}
    (h : e ∈ runEvents i w) :
    isRunEv e = true ∧ isPreflightEv e = false ∧ isPreflightCall e = false ∧
      isTeardownCall e = false ∧ isTeardownEv e = false := by
  cases hw : w.runHandle <;> rw [runEvents, hw] at h <;> simp at h
  · rcases h with rfl | rfl <;> exact ⟨rfl, rfl, rfl, rfl, rfl⟩
  · rcases h with rfl | rfl | rfl <;> exact ⟨rfl, rfl, rfl, rfl, rfl⟩

theorem mem_tdEvents_kind {e : Event} {i : Nat} {w : SchedWorkload}
    (h : e ∈ tdEvents i w) :
    isTeardownEv e = true ∧ isPreflightEv e = false ∧ isPreflightCall e = false ∧
      isRunCall e = false ∧ isRunEv e = false := by
  cases hw : w.teardownHandle <;> rw [tdEvents, hw] at h <;> simp at h
  · subst h; exact ⟨rfl, rfl, rfl, rfl, rfl⟩
  · rcases h with rfl | rfl <;> exact ⟨rfl, rfl, rfl, rfl, rfl⟩

theorem mem_phaseTrace {f : Nat → SchedWorkload → List Event}
    {P : Event → Prop} (hf : ∀ i w e, e ∈ f i w → P e) :
    ∀ (i : Nat) (ws : List SchedWorkload) (e : Event),
      e ∈ phaseTrace f i ws → P e := by
  intro i ws
  induction ws generalizing i with
  | nil => intro e h; rw [phaseTrace] at h; exact absurd h (List.not_mem_nil e)
  | cons w ws ih =>
    intro e h
    rw [phaseTrace] at h
    rcases List.mem_append.mp h with h | h
    · exact hf i w e h
    · exact ih (i + 1) e h

theorem mem_workerTraces {l : List Event} :
    ∀ (i : Nat) (ws : List SchedWorkload), l ∈ workerTraces i ws →
      ∃ j w, l = runEvents j w := by
  intro i ws
  induction ws generalizing i with
  | nil => intro h; rw [workerTraces] at h; exact absurd h (List.not_mem_nil l)
  | cons w ws ih =>
    intro h
    rw [workerTraces] at h
    rcases List.mem_cons.mp h with h | h
    · exact ⟨i, w, h⟩
    · exact ih (i + 1) h

theorem flatten_get_set_perm {α : Type} :
    ∀ (trs : List (List α)) (s : Nat) (e : α) (es : List α),
      trs.get? s = some (e :: es) →
      List.Perm trs.flatten (e :: (trs.set s es).flatten) := by
  intro trs
  induction trs with
  | nil => intro s e es h; exact absurd h (by simp)
  | cons t ts ih =>
    intro s e es h
    cases s with
    | zero =>
      simp only [List.get?] at h
      injection h with h
      subst h
      exact List.Perm.refl _
    | succ s =>
      simp only [List.get?] at h
      have hp := ih s e es h
      have h1 : List.Perm (t ++ ts.flatten) (t ++ (e :: (ts.set s es).flatten)) :=
        List.Perm.append_left t hp
      have h2 : List.Perm (t ++ (e :: (ts.set s es).flatten))
          (e :: (t ++ (ts.set s es).flatten)) := List.perm_middle
      simpa [List.set] using h1.trans h2

theorem countP_pflEvents (i : Nat) (w : SchedWorkload) :
    (pflEvents i w).countP isPreflightCall = 1 := by
  cases hw : w.preflightHandle <;>
    simp [pflEvents, hw, List.countP_cons, isPreflightCall]

theorem countP_phaseTrace_pfl :
    ∀ (i : Nat) (ws : List SchedWorkload),
      (phaseTrace pflEvents i ws).countP isPreflightCall = ws.length := by
  intro i ws
  induction ws generalizing i with
  | nil => rw [phaseTrace]; rfl
  | cons w ws ih =>
    rw [phaseTrace, List.countP_append, countP_pflEvents, ih (i + 1)]
    simp [Nat.add_comm]

theorem countP_runEvents (i : Nat) (w : SchedWorkload) :
    (runEvents i w).countP isRunCall = 1 := by
  cases hw : w.runHandle <;>
    simp [runEvents, hw, List.countP_cons, isRunCall]

theorem countP_flatten_workerTraces :
    ∀ (i : Nat) (ws : List SchedWorkload),
      ((workerTraces i ws).flatten).countP isRunCall = ws.length := by
  intro i ws
  induction ws generalizing i with
  | nil => rw [workerTraces]; rfl
  | cons w ws ih =>
    rw [workerTraces, List.flatten_cons, List.countP_append, countP_runEvents,
      ih (i + 1)]
    simp [Nat.add_comm]

/-- The teardown calls `i, i+1, ..., i+n-1` in order. -/
def tdCallList : Nat → Nat → List Event
  | _, 0 => []
  | i, n + 1 => Event.teardownCall i :: tdCallList (i + 1) n

theorem filter_tdEvents (i : Nat) (w : SchedWorkload) :
    (tdEvents i w).filter isTeardownCall = [Event.teardownCall i] := by
  cases hw : w.teardownHandle <;>
    simp [tdEvents, hw, List.filter, isTeardownCall]

theorem filter_phaseTrace_td :
    ∀ (i : Nat) (ws : List SchedWorkload),
      (phaseTrace tdEvents i ws).filter isTeardownCall = tdCallList i ws.length := by
  intro i ws
  induction ws generalizing i with
  | nil => rw [phaseTrace]; rfl
  | cons w ws ih =>
    rw [phaseTrace, List.filter_append, filter_tdEvents, ih (i + 1)]
    rfl

theorem tdCallList_eq_range :
    ∀ (n i : Nat), tdCallList i n
      = (List.range n).map (fun k => Event.teardownCall (i + k)) := by
  intro n
  induction n with
  | zero => intro i; rfl
  | succ n ih =>
    intro i
    rw [tdCallList, ih (i + 1), List.range_succ_eq_map, List.map_cons,
      List.map_map]
    refine congrArg₂ _ (by rw [Nat.add_zero]) ?_
    refine List.map_congr_left ?_
    intro a _
    simp only [Function.comp]
    congr 1
    omega

theorem get_append_left_mem {α : Type} (l₁ l₂ : List α) :
    ∀ (p : Nat) (hp : p < (l₁ ++ l₂).length), p < l₁.length →
      (l₁ ++ l₂).get ⟨p, hp⟩ ∈ l₁ := by
  induction l₁ with
  | nil => intro p hp h; exact absurd h (Nat.not_lt_zero p)
  | cons a t ih =>
    intro p hp h
    cases p with
    | zero => exact List.mem_cons_self _ _
    | succ p =>
      have hp2 : p < (t ++ l₂).length := Nat.lt_of_succ_lt_succ hp
      exact List.mem_cons_of_mem a (ih p hp2 (Nat.lt_of_succ_lt_succ h))

theorem get_append_right_mem {α : Type} (l₁ l₂ : List α) :
    ∀ (p : Nat) (hp : p < (l₁ ++ l₂).length), l₁.length ≤ p →
      (l₁ ++ l₂).get ⟨p, hp⟩ ∈ l₂ := by
  induction l₁ with
  | nil => intro p hp _; exact List.get_mem l₂ p hp
  | cons a t ih =>
    intro p hp h
    cases p with
    | zero => exact absurd h (by simp)
    | succ p =>
      have hp2 : p < (t ++ l₂).length := Nat.lt_of_succ_lt_succ hp
      exact ih p hp2 (Nat.le_of_succ_le_succ h)

/-- In `l₁ ++ l₂`, any position carrying a `P`-event precedes any position
carrying a `Q`-event, provided `P` never holds in `l₂` and `Q` never holds
in `l₁`. -/
theorem append_before {α : Type} {P Q : α → Bool} (l₁ l₂ : List α)
    (h2 : ∀ e ∈ l₂, P e = false) (h1 : ∀ e ∈ l₁, Q e = false)
    (p q : Nat) (hp : p < (l₁ ++ l₂).length) (hq : q < (l₁ ++ l₂).length)
    (hP : P ((l₁ ++ l₂).get ⟨p, hp⟩) = true)
    (hQ : Q ((l₁ ++ l₂).get ⟨q, hq⟩) = true) :
    p < q := by
  have hpl : p < l₁.length := by
    by_contra hc
    have hf := h2 _ (get_append_right_mem l₁ l₂ p hp (Nat.le_of_not_lt hc))
    exact Bool.noConfusion (hP.symm.trans hf)
  have hql : l₁.length ≤ q := by
    by_contra hc
    have hf := h1 _ (get_append_left_mem l₁ l₂ q hq (Nat.lt_of_not_le hc))
    exact Bool.noConfusion (hQ.symm.trans hf)
  exact Nat.lt_of_lt_of_le hpl hql

theorem enumFrom_get {α : Type} :
    ∀ (l : List α) (n i : Nat) (h : i < (List.enumFrom n l).length)
      (h2 : i < l.length),
      (List.enumFrom n l).get ⟨i, h⟩ = (n + i, l.get ⟨i, h2⟩) := by
  intro l
  induction l with
  | nil => intro n i h h2; exact absurd h2 (by simp)
  | cons a t ih =>
    intro n i h h2
    cases i with
    | zero => simp [List.enumFrom]
    | succ i =>
      have hlen : i < (List.enumFrom (n + 1) t).length :=
        Nat.lt_of_succ_lt_succ h
      have hstep : (List.enumFrom n (a :: t)).get ⟨i + 1, h⟩
          = (List.enumFrom (n + 1) t).get ⟨i, hlen⟩ := rfl
      rw [hstep, ih (n + 1) i hlen (Nat.lt_of_succ_lt_succ h2)]
      simp only [Prod.mk.injEq]
      exact ⟨by omega, rfl⟩

/-- Every interleaving of the worker traces is a permutation of their
concatenation. -/
theorem interleave_perm {α : Type} :
    ∀ (sched : List Nat) (trs : List (List α)),
      List.Perm (interleave sched trs) trs.flatten := by
  intro sched
  induction sched with
  | nil => intro trs; exact List.Perm.refl _
  | cons s rest ih =>
    intro trs
    rw [interleave]
    cases hg : trs.get? s with
    | none => exact ih trs
    | some l =>
      cases l with
      | nil => exact ih trs
      | cons e es =>
        exact (List.Perm.cons e (ih (trs.set s es))).trans
          (flatten_get_set_perm trs s e es hg).symm

theorem get_append_mid_mem {α : Type} (A B C : List α) :
    ∀ (p : Nat) (hp : p < (A ++ (B ++ C)).length), A.length ≤ p →
      p < A.length + B.length → (A ++ (B ++ C)).get ⟨p, hp⟩ ∈ B := by
  induction A with
  | nil =>
    intro p hp _ h2
    exact get_append_left_mem B C p hp (by simpa using h2)
  | cons a t ih =>
    intro p hp h1 h2
    cases p with
    | zero => exact absurd h1 (by simp)
    | succ p =>
      refine ih p (Nat.lt_of_succ_lt_succ hp) (Nat.le_of_succ_le_succ h1) ?_
      rw [List.length_cons] at h2
      omega

theorem get_append_last_mem {α : Type} (A B C : List α) :
    ∀ (p : Nat) (hp : p < (A ++ (B ++ C)).length), A.length + B.length ≤ p →
      (A ++ (B ++ C)).get ⟨p, hp⟩ ∈ C := by
  induction A with
  | nil =>
    intro p hp h
    exact get_append_right_mem B C p hp (by simpa using h)
  | cons a t ih =>
    intro p hp h
    cases p with
    | zero =>
      rw [List.length_cons] at h
      exact absurd h (by omega)
    | succ p =>
      refine ih p (Nat.lt_of_succ_lt_succ hp) ?_
      rw [List.length_cons] at h
      omega

/-! ## Claim C4 and C5: the loss report -/

/-- A one-row performance pivot holding quiet=100, noisy=80 for the
primary workload at the node-count pair (4, 2). -/
def perfC4 : PerfFrame :=
  ⟨[("quiet", "primary"), ("noisy", "primary")],
    [((4, 2), [PVal.val 100, PVal.val 80])]⟩

/-- C4 (counterexample): with quiet=100 and noisy=80 for "primary", the
code computes `(100 - 80) * (100.0 / 100) = 20.0`, not the 25.0 the claim
states, so the claim is false at this concrete pivot. -/
theorem c4_loss_sample_counterexample :
    loss_frame perfC4 = .ok [((4, 2), [("primary", PVal.val 20)])] ∧
    PVal.val 20 ≠ PVal.val 25 := by
  refine ⟨?_, by decide⟩
  simp +decide only [loss_frame, perfC4, lossRow, lossEntry, rowLoc,
    PVal.sub, PVal.mul, PVal.div, List.filterMap, List.filter]
  norm_num

/-- C4 (amended): a performance pivot with a quiet value of 100 and a
noisy value of 80 for a workload at some node-count pair yields a loss
entry of 20.0 for that workload at that pair. -/
theorem c4_loss_sample_amended (cols : List (String × String))
    (vals : List PVal) (w : String)
    (hq : rowLoc cols vals ("quiet", w) = some (PVal.val 100))
    (hn : rowLoc cols vals ("noisy", w) = some (PVal.val 80)) :
    lossEntry cols vals w = some (PVal.val 20) := by
  unfold lossEntry
  rw [hq, hn]
  norm_num [PVal.sub, PVal.mul, PVal.div]

theorem c4_loss_sample_amended_witness :
    rowLoc perfC4.columns [PVal.val 100, PVal.val 80] ("quiet", "primary")
        = some (PVal.val 100) ∧
    rowLoc perfC4.columns [PVal.val 100, PVal.val 80] ("noisy", "primary")
        = some (PVal.val 80) ∧
    lossEntry perfC4.columns [PVal.val 100, PVal.val 80] "primary"
        = some (PVal.val 20) :=
  ⟨rfl, rfl,
    c4_loss_sample_amended perfC4.columns [PVal.val 100, PVal.val 80]
      "primary" rfl rfl⟩

/-- A two-row performance pivot: the (4,2) row has both values, the (2,4)
row has a NaN quiet cell (pandas' missing-mean marker, as produced by
`pivot_table` when that pair recorded no quiet run) and a noisy value. -/
def perfC5 : PerfFrame :=
  ⟨[("quiet", "primary"), ("noisy", "primary")],
    [((4, 2), [PVal.val 100, PVal.val 80]),
     ((2, 4), [PVal.nan, PVal.val 80])]⟩

/-- C5 (counterexample): at the pair (2,4) only a noisy value exists for
"primary" (the quiet cell is NaN), yet the loss entry is present and is
NaN — the NaN propagates through `quiet - noisy` and `100.0 / quiet` —
contradicting the claim that the entry would be absent rather than
null-propagated. -/
theorem c5_loss_formula_counterexample :
    lossEntry perfC5.columns [PVal.nan, PVal.val 80] "primary"
        = some PVal.nan ∧
    loss_frame perfC5 = .ok [((4, 2), [("primary", PVal.val 20)]),
      ((2, 4), [("primary", PVal.nan)])] := by
  refine ⟨by rfl, ?_⟩
  simp +decide only [loss_frame, perfC5, lossRow, lossEntry, rowLoc,
    PVal.sub, PVal.mul, PVal.div, List.filterMap, List.filter]
  norm_num

/-- C5 (amended): the loss entry equals `100 * (quiet - noisy) / quiet`
when both cells hold values (and quiet is nonzero); it is absent exactly
when the quiet or noisy column is missing from the pivot's column index
(the `KeyError` path); but when a column exists and its cell for this
pair is NaN, the entry is present and NaN (null-propagated), not absent. -/
theorem c5_loss_formula_amended (cols : List (String × String))
    (vals : List PVal) (w : String) :
    (rowLoc cols vals ("quiet", w) = none → lossEntry cols vals w = none) ∧
    (rowLoc cols vals ("noisy", w) = none → lossEntry cols vals w = none) ∧
    (∀ q n : ℚ, rowLoc cols vals ("quiet", w) = some (PVal.val q) →
      rowLoc cols vals ("noisy", w) = some (PVal.val n) → q ≠ 0 →
      lossEntry cols vals w = some (PVal.val (100 * (q - n) / q))) ∧
    (∀ pv, rowLoc cols vals ("quiet", w) = some PVal.nan →
      rowLoc cols vals ("noisy", w) = some pv →
      lossEntry cols vals w = some PVal.nan) ∧
    (∀ q : ℚ, rowLoc cols vals ("quiet", w) = some (PVal.val q) →
      rowLoc cols vals ("noisy", w) = some PVal.nan →
      lossEntry cols vals w = some PVal.nan) := by
  refine ⟨?_, ?_, ?_, ?_, ?_⟩
  · intro hq
    cases hn : rowLoc cols vals ("noisy", w) <;> simp [lossEntry, hq, hn]
  · intro hn
    cases hq : rowLoc cols vals ("quiet", w) <;> simp [lossEntry, hq, hn]
  · intro q n hq hn hz
    simp only [lossEntry, hq, hn, PVal.sub, PVal.div, PVal.mul, if_neg hz,
      Option.some.injEq, PVal.val.injEq]
    ring
  · intro pv hq hn
    cases pv <;> simp [lossEntry, hq, hn, PVal.sub, PVal.div, PVal.mul]
  · intro q hq hn
    simp [lossEntry, hq, hn, PVal.sub, PVal.div, PVal.mul]

theorem c5_loss_formula_amended_witness :
    rowLoc perfC5.columns [PVal.val 100, PVal.val 80] ("quiet", "primary")
        = some (PVal.val 100) ∧
    rowLoc perfC5.columns [PVal.val 100, PVal.val 80] ("noisy", "primary")
        = some (PVal.val 80) ∧
    (100 : ℚ) ≠ 0 ∧
    lossEntry perfC5.columns [PVal.val 100, PVal.val 80] "primary"
        = some (PVal.val (100 * ((100 : ℚ) - 80) / 100)) :=
  ⟨rfl, rfl, by norm_num,
    (c5_loss_formula_amended perfC5.columns [PVal.val 100, PVal.val 80]
      "primary").2.2.1 100 80 rfl rfl (by norm_num)⟩

/-! ## Claim C8: the isolation selector -/

/-- C8 (counterexample): "banana" is not one of the legal selector values,
yet `run_interference` accepts it (its lowercased first character is `b`)
and isolates both workloads instead of raising the validation error. -/
theorem c8_isolate_validation_counterexample :
    parse_isolate "banana" = .ok [WhichWorkload.primary, WhichWorkload.secondary] ∧
    ¬ ("banana" = "primary" ∨ "banana" = "secondary" ∨ "banana" = "both") := by
  constructor
  · rfl
  · decide

/-- C8 (amended): a selector whose lowercased FIRST CHARACTER is not `b`,
`p` or `s` raises the `ValueError` naming the legal values; selectors are
matched only on that first character, so other strings starting with
those letters are accepted, and the empty string raises `IndexError`
instead. -/
theorem c8_isolate_validation_amended (s : String) (c : Char) (cs : List Char)
    (h : (strLower s).data = c :: cs)
    (hb : c ≠ 'b') (hp : c ≠ 'p') (hs : c ≠ 's') :
    parse_isolate s
      = .error (.valueError "isolate must be one of: primary secondary both") := by
  unfold parse_isolate
  rw [h]
  dsimp only
  rw [if_neg hb, if_neg hp, if_neg hs]

theorem c8_isolate_validation_amended_witness :
    (strLower "x").data = ['x'] ∧ 'x' ≠ 'b' ∧ 'x' ≠ 'p' ∧ 'x' ≠ 's' ∧
    parse_isolate "x"
      = .error (.valueError "isolate must be one of: primary secondary both") :=
  ⟨rfl, by decide, by decide, by decide,
    c8_isolate_validation_amended "x" 'x' [] rfl (by decide) (by decide)
      (by decide)⟩

/-! ## Claim C9: symmetric entry point arity -/

theorem initLabels_ok_of_hosts {jobid : String} :
    ∀ (ws : List Workload), (∀ w ∈ ws, w.launcher.hosts ≠ none) →
      ∃ ws2, initLabels jobid ws = .ok ws2 := by
  intro ws
  induction ws with
  | nil => intro _; exact ⟨[], rfl⟩
  | cons w ws ih =>
    intro hh
    obtain ⟨ws2, h2⟩ := ih (fun x hx => hh x (List.mem_cons_of_mem w hx))
    cases hc : w.launcher.hosts with
    | none => exact absurd hc (hh w (List.mem_cons_self w ws))
    | some hs =>
      refine ⟨{ w with jobid := some jobid, nnodes := some hs.length } :: ws2, ?_⟩
      simp only [initLabels]
      rw [hc, h2]
      rfl

/-- C9: handing more than two workload descriptors to
`run_symmetric_interference` raises
`NotImplementedError("more than two workloads provided")` — the arity
check at lines 551-552 fires before any benchmark runs — rather than
silently using only the first two. -/
theorem c9_symmetric_arity_error (jobid : String) (ws : List Workload)
    (hlen : 2 < ws.length) (hh : ∀ w ∈ ws, w.launcher.hosts ≠ none) :
    run_symmetric_guard jobid ws
      = .error (.notImplemented "more than two workloads provided") := by
  obtain ⟨ws2, h2⟩ := initLabels_ok_of_hosts ws hh
  unfold run_symmetric_guard
  rw [h2]
  dsimp only
  rw [if_pos hlen]

/-- A minimal launcher for the C9 witness. -/
def lC9 : LauncherState :=
  baseInit .ior (some ["a"]) 1 ["/d"] 0 false true none none []

def c9ws : List Workload :=
  [{ launcher := lC9, access := "write", pattern := "bw", role := "primary" },
   { launcher := lC9, access := "write", pattern := "bw", role := "secondary" },
   { launcher := lC9, access := "read", pattern := "bw", role := "secondary" }]

theorem c9_symmetric_arity_error_witness :
    2 < c9ws.length ∧ (∀ w ∈ c9ws, w.launcher.hosts ≠ none) ∧
    run_symmetric_guard "123" c9ws
      = .error (.notImplemented "more than two workloads provided") :=
  ⟨by decide, by decide,
    c9_symmetric_arity_error "123" c9ws (by decide) (by decide)⟩

/-! ## Claim C2: the scheduler's phase discipline -/

theorem get_map_fin {α β : Type} (f : α → β) :
    ∀ (l : List α) (i : Nat) (h : i < (l.map f).length) (h2 : i < l.length),
      (l.map f).get ⟨i, h⟩ = f (l.get ⟨i, h2⟩) := by
  intro l
  induction l with
  | nil => intro i h h2; exact absurd h2 (by simp)
  | cons a t ih =>
    intro i h h2
    cases i with
    | zero => rfl
    | succ i => exact ih i (Nat.lt_of_succ_lt_succ h) (Nat.lt_of_succ_lt_succ h2)

/-- C2 (counterexample): with an empty descriptor list the scheduler does
not return an (empty) result list — `ThreadPool(0)` raises
`ValueError("Number of processes must be at least 1")` (line 509). -/
theorem c2_scheduler_counterexample :
    run_launchers_trace [] []
      = .error (.valueError "Number of processes must be at least 1") := rfl

/-- C2 (amended): for every NONEMPTY list of N workload descriptors and
every thread schedule, one `run_launchers` invocation produces the phase
trace in which (a) exactly N preflight calls occur, (b) exactly N run
calls occur, (c) the teardown calls are exactly 0..N-1 in input order,
(d) every preflight event — the call and the wait on its blocking handle
— precedes every run-phase event, (e) every run-phase event precedes
every teardown event, and (f) the returned list holds each worker's
(start, end) measurement in input order (`pool.starmap` returns results
in argument order).  With an empty list the call raises instead. -/
theorem c2_scheduler_amended (ws : List SchedWorkload) (sched : List Nat)
    (measure : SchedWorkload → Nat → Int × Int) (delay : Nat)
    (hne : ws ≠ []) :
    run_launchers_trace ws sched = .ok (schedTrace ws sched) ∧
    (schedTrace ws sched).countP isPreflightCall = ws.length ∧
    (schedTrace ws sched).countP isRunCall = ws.length ∧
    (schedTrace ws sched).filter isTeardownCall
      = (List.range ws.length).map Event.teardownCall ∧
    (∀ (p q : Nat) (hp : p < (schedTrace ws sched).length)
        (hq : q < (schedTrace ws sched).length),
      isPreflightEv ((schedTrace ws sched).get ⟨p, hp⟩) = true →
      isRunEv ((schedTrace ws sched).get ⟨q, hq⟩) = true → p < q) ∧
    (∀ (p q : Nat) (hp : p < (schedTrace ws sched).length)
        (hq : q < (schedTrace ws sched).length),
      isRunEv ((schedTrace ws sched).get ⟨p, hp⟩) = true →
      isTeardownEv ((schedTrace ws sched).get ⟨q, hq⟩) = true → p < q) ∧
    (run_launchers_results measure delay ws).length = ws.length ∧
    (∀ (i : Nat) (hi : i < (run_launchers_results measure delay ws).length)
        (hi2 : i < ws.length),
      (run_launchers_results measure delay ws).get ⟨i, hi⟩
        = measure (ws.get ⟨i, hi2⟩) (delay * i)) := by
  have hAmem : ∀ (e : Event), e ∈ phaseTrace pflEvents 0 ws →
      isPreflightEv e = true ∧ isRunCall e = false ∧ isRunEv e = false ∧
        isTeardownCall e = false ∧ isTeardownEv e = false :=
    fun e he => mem_phaseTrace (fun _ _ _ h => mem_pflEvents_kind h) 0 ws e he
  have hBmem : ∀ e ∈ interleave sched (workerTraces 0 ws),
      isRunEv e = true ∧ isPreflightEv e = false ∧ isPreflightCall e = false ∧
        isTeardownCall e = false ∧ isTeardownEv e = false := by
    intro e he
    have hm : e ∈ (workerTraces 0 ws).flatten :=
      (interleave_perm sched (workerTraces 0 ws)).mem_iff.mp he
    obtain ⟨l, hl, hel⟩ := List.mem_flatten.mp hm
    obtain ⟨j, w, rfl⟩ := mem_workerTraces 0 ws hl
    exact mem_runEvents_kind hel
  have hCmem : ∀ e ∈ (Event.settle :: phaseTrace tdEvents 0 ws),
      isPreflightEv e = false ∧ isPreflightCall e = false ∧
        isRunCall e = false ∧ isRunEv e = false ∧ isTeardownCall e = false ∨
      isTeardownEv e = true ∧ isPreflightEv e = false ∧
        isPreflightCall e = false ∧ isRunCall e = false ∧ isRunEv e = false := by
    intro e he
    rcases List.mem_cons.mp he with rfl | he
    · exact Or.inl ⟨rfl, rfl, rfl, rfl, rfl⟩
    · exact Or.inr (mem_phaseTrace (fun _ _ _ h => mem_tdEvents_kind h) 0 ws e he)
  have hCpfl : ∀ e ∈ (Event.settle :: phaseTrace tdEvents 0 ws),
      isPreflightEv e = false ∧ isPreflightCall e = false ∧
        isRunCall e = false ∧ isRunEv e = false := by
    intro e he
    rcases hCmem e he with h | h
    · exact ⟨h.1, h.2.1, h.2.2.1, h.2.2.2.1⟩
    · exact ⟨h.2.1, h.2.2.1, h.2.2.2.1, h.2.2.2.2⟩
  refine ⟨?_, ?_, ?_, ?_, ?_, ?_, ?_, ?_⟩
  · unfold run_launchers_trace
    rw [if_neg (fun h => hne (List.length_eq_zero.mp h))]
  · show (phaseTrace pflEvents 0 ws
        ++ (interleave sched (workerTraces 0 ws)
          ++ (Event.settle :: phaseTrace tdEvents 0 ws))).countP isPreflightCall
      = ws.length
    rw [List.countP_append, List.countP_append, countP_phaseTrace_pfl,
      List.countP_eq_zero.mpr (fun e he => by simp [(hBmem e he).2.2.1]),
      List.countP_eq_zero.mpr (fun e he => by simp [(hCpfl e he).2.1])]
    omega
  · show (phaseTrace pflEvents 0 ws
        ++ (interleave sched (workerTraces 0 ws)
          ++ (Event.settle :: phaseTrace tdEvents 0 ws))).countP isRunCall
      = ws.length
    rw [List.countP_append, List.countP_append,
      List.countP_eq_zero.mpr (fun e he => by simp [(hAmem e he).2.1]),
      (interleave_perm sched (workerTraces 0 ws)).countP_eq isRunCall,
      countP_flatten_workerTraces,
      List.countP_eq_zero.mpr (fun e he => by simp [(hCpfl e he).2.2.1])]
    omega
  · show (phaseTrace pflEvents 0 ws
        ++ (interleave sched (workerTraces 0 ws)
          ++ (Event.settle :: phaseTrace tdEvents 0 ws))).filter isTeardownCall
      = (List.range ws.length).map Event.teardownCall
    rw [List.filter_append, List.filter_append,
      List.filter_eq_nil_iff.mpr (fun e he => by simp [(hAmem e he).2.2.2.1]),
      List.filter_eq_nil_iff.mpr (fun e he => by simp [(hBmem e he).2.2.2.1]),
      show (Event.settle :: phaseTrace tdEvents 0 ws).filter isTeardownCall
        = (phaseTrace tdEvents 0 ws).filter isTeardownCall from rfl,
      filter_phaseTrace_td, tdCallList_eq_range]
    simp
  · intro p q hp hq hP hQ
    exact append_before (phaseTrace pflEvents 0 ws)
      (interleave sched (workerTraces 0 ws)
        ++ (Event.settle :: phaseTrace tdEvents 0 ws))
      (fun e he => by
        rcases List.mem_append.mp he with he | he
        · exact (hBmem e he).2.1
        · exact (hCpfl e he).1)
      (fun e he => (hAmem e he).2.2.1)
      p q hp hq hP hQ
  · intro p q hp hq hP hQ
    have hpB : p < (phaseTrace pflEvents 0 ws).length
        + (interleave sched (workerTraces 0 ws)).length := by
      by_contra hc
      have hf := (hCpfl _ (get_append_last_mem (phaseTrace pflEvents 0 ws)
        (interleave sched (workerTraces 0 ws))
        (Event.settle :: phaseTrace tdEvents 0 ws) p hp
        (Nat.le_of_not_lt hc))).2.2.2
      exact Bool.noConfusion (hP.symm.trans hf)
    have hqB : (phaseTrace pflEvents 0 ws).length
        + (interleave sched (workerTraces 0 ws)).length ≤ q := by
      by_contra hc
      rcases Nat.lt_or_ge q (phaseTrace pflEvents 0 ws).length with hq1 | hq1
      · have hf := (hAmem _ (get_append_left_mem (phaseTrace pflEvents 0 ws)
          (interleave sched (workerTraces 0 ws)
            ++ (Event.settle :: phaseTrace tdEvents 0 ws)) q hq hq1)).2.2.2.2
        exact Bool.noConfusion (hQ.symm.trans hf)
      · have hf := (hBmem _ (get_append_mid_mem (phaseTrace pflEvents 0 ws)
          (interleave sched (workerTraces 0 ws))
          (Event.settle :: phaseTrace tdEvents 0 ws) q hq hq1
          (Nat.lt_of_not_le hc))).2.2.2.2
        exact Bool.noConfusion (hQ.symm.trans hf)
    exact Nat.lt_of_lt_of_le hpB hqB
  · simp [run_launchers_results, List.enum_length]
  · intro i hi hi2
    have hlen : i < ws.enum.length := by
      rw [List.enum_length]
      exact hi2
    have h1 : (run_launchers_results measure delay ws).get ⟨i, hi⟩
        = (fun iw : Nat × SchedWorkload => measure iw.2 (delay * iw.1))
            (ws.enum.get ⟨i, hlen⟩) :=
      get_map_fin _ ws.enum i hi hlen
    have h2 : ws.enum.get ⟨i, hlen⟩ = (0 + i, ws.get ⟨i, hi2⟩) :=
      enumFrom_get ws 0 i hlen hi2
    rw [h1, h2]
    simp

def c2ws : List SchedWorkload := [⟨true, true, true⟩, ⟨false, false, false⟩]

theorem c2_scheduler_amended_witness :
    c2ws ≠ [] ∧
    (run_launchers_trace c2ws [0, 1] = .ok (schedTrace c2ws [0, 1]) ∧
    (schedTrace c2ws [0, 1]).countP isPreflightCall = c2ws.length ∧
    (schedTrace c2ws [0, 1]).countP isRunCall = c2ws.length ∧
    (schedTrace c2ws [0, 1]).filter isTeardownCall
      = (List.range c2ws.length).map Event.teardownCall ∧
    (∀ (p q : Nat) (hp : p < (schedTrace c2ws [0, 1]).length)
        (hq : q < (schedTrace c2ws [0, 1]).length),
      isPreflightEv ((schedTrace c2ws [0, 1]).get ⟨p, hp⟩) = true →
      isRunEv ((schedTrace c2ws [0, 1]).get ⟨q, hq⟩) = true → p < q) ∧
    (∀ (p q : Nat) (hp : p < (schedTrace c2ws [0, 1]).length)
        (hq : q < (schedTrace c2ws [0, 1]).length),
      isRunEv ((schedTrace c2ws [0, 1]).get ⟨p, hp⟩) = true →
      isTeardownEv ((schedTrace c2ws [0, 1]).get ⟨q, hq⟩) = true → p < q) ∧
    (run_launchers_results (fun _ _ => ((0 : Int), (0 : Int))) 5 c2ws).length
      = c2ws.length ∧
    (∀ (i : Nat)
        (hi : i < (run_launchers_results (fun _ _ => ((0 : Int), (0 : Int))) 5 c2ws).length)
        (hi2 : i < c2ws.length),
      (run_launchers_results (fun _ _ => ((0 : Int), (0 : Int))) 5 c2ws).get ⟨i, hi⟩
        = (fun (_ : SchedWorkload) (_ : Nat) => ((0 : Int), (0 : Int)))
            (c2ws.get ⟨i, hi2⟩) (5 * i))) :=
  ⟨by decide,
    c2_scheduler_amended c2ws [0, 1] (fun _ _ => ((0 : Int), (0 : Int))) 5
      (by decide)⟩

/-! ## Claims C1, C3, C6, C7, C10: launcher behaviour -/

theorem core_eq_variant {s1 s2 : LauncherState} (h : core s1 = core s2) :
    s1.variant = s2.variant := by
  have hh := congrArg LauncherState.variant h
  exact hh

/-- A filesystem on which `os.path.isfile` is false everywhere (no results
files are routed). -/
def fsNone : String → Bool := fun _ => false

def emptyLauncher : LauncherState :=
  baseInit .ior none 0 [] 0 false false none none []

/-- Unwrap a constructor result known to be `ok`. -/
def okState : Except Err LauncherState → LauncherState
  | .ok st => st
  | .error _ => emptyLauncher

/-- A small ior tool configuration in the shape `load_config` documents. -/
def iorCfg : ToolConfig :=
  { binary := "/usr/bin/ior"
    common_args := "-F -C"
    access_args := [("write", "-w"), ("read", "-r")]
    pattern_args := [("bw", "-t 1m -b 16m")]
    timelimit_args := "-D" }

/-- An ior launcher in dry-run mode on two hosts. -/
def iorTest : LauncherState :=
  okState (mkIor "srun" (some ["n1", "n2"]) 4 ["/scratch/run1"] 0 false true
    none none [] iorCfg)

/-- A small md-workbench tool configuration. -/
def mdwCfg : ToolConfig :=
  { binary := "/usr/bin/md-workbench"
    common_args := "-I 10 -P 20"
    access_args := [("write", "-2")]
    pattern_args := [("iops", "")]
    timelimit_args := "-t" }

/-- A live (non-dry-run) md-workbench launcher on two hosts. -/
def mdwLive : LauncherState :=
  okState (mkMdworkbench "srun" (some ["n1", "n2"]) 4 ["/scratch/run1"] 0
    false false none none [] mdwCfg)

/-- A small elbencho tool configuration, following the example in the
`load_config` docstring. -/
def elbCfg : ToolConfig :=
  { binary := "/usr/bin/elbencho"
    common_args := "--threads 1 --sync"
    access_args := [("write", "--write"), ("read", "--read"),
      ("clean", "--delfiles")]
    pattern_args := [("bw", "--size 1t --block 1m")]
    timelimit_args := "--timelimit" }

/-- An elbencho launcher in dry-run mode on two hosts. -/
def elbTest : LauncherState :=
  okState (mkElbencho (some ["n1", "n2"]) 4 ["/scratch/run1"] 0 false true
    none none [] elbCfg)

/-- C1 (counterexample): `run` merges its extra keyword arguments into the
launcher's retained `_kwargs` dict (line 249) before assembling, so after
a call that passed `foo=1`, a later call with identical configuration and
identical call arguments (write/bw, no extras) logs a different command
line than the same call on the untouched launcher — the `--foo 1` flag is
retained.  This refutes "the result of a call never depends on state
retained from any prior call". -/
theorem c1_assembly_stateless_counterexample :
    (run "srun" fsNone
        (stateAfter
          (run "srun" fsNone iorTest "write" "bw" none none
            [("foo", KwVal.str "1")]) iorTest)
        "write" "bw" none none []).eff.log
      ≠ (run "srun" fsNone iorTest "write" "bw" none none []).eff.log := by
  decide

/-- C1 (amended): command-line assembly is deterministic in the launcher's
current state: (a) the scratch buffer is rebuilt from scratch, so the
previous buffer contents never influence the result; (b) a `run` call
with NO extra keyword arguments leaves every field except the scratch
buffer unchanged; and therefore (c) two consecutive `run` calls with the
same access/pattern and no extras log identical command lines.  (With
extra keyword arguments the retained `_kwargs` dict is mutated, which is
what the counterexample exhibits.) -/
theorem c1_assembly_stateless_amended (mp : String) (fs : String → Bool)
    (s : LauncherState) (a p : String) (c : List String)
    (sa se : Option (Option StreamDest)) :
    prep_cmdline mp fs { s with cmdline := c } a p = prep_cmdline mp fs s a p ∧
    (∀ s1 h1, (run mp fs s a p sa se []).res = .ok (s1, h1) →
      core s1 = core s) ∧
    (∀ s1 h1, (run mp fs s a p sa se []).res = .ok (s1, h1) →
      (run mp fs s1 a p sa se []).eff.log
        = (run mp fs s a p sa se []).eff.log) := by
  refine ⟨prep_cmdline_ignores_cmdline mp fs s c a p, ?_, ?_⟩
  · intro s1 h1 h
    exact run_core h
  · intro s1 h1 h
    have hc : core s1 = core s := run_core h
    rw [run_respects_core hc mp fs a p sa se []]

theorem c1_assembly_stateless_amended_witness :
    (run "srun" fsNone iorTest "write" "bw" none none []).res
      = .ok (stateAfter (run "srun" fsNone iorTest "write" "bw" none none [])
          iorTest, none) ∧
    core (stateAfter (run "srun" fsNone iorTest "write" "bw" none none [])
        iorTest) = core iorTest :=
  ⟨by decide,
    (c1_assembly_stateless_amended "srun" fsNone iorTest "write" "bw" []
      none none).2.1
      (stateAfter (run "srun" fsNone iorTest "write" "bw" none none [])
        iorTest) none (by decide)⟩

/-- C3: for every launcher whose host-enumeration step is well-formed
(which covers all three adapter variants as constructed), a `run` with an
access mode absent from the access table fails with `KeyError(access)`,
and one whose pattern is absent from the pattern table fails with
`KeyError(pattern)` — in both cases before any subprocess is launched
(the effect list is empty). -/
theorem c3_unknown_key_config_error (mp : String) (fs : String → Bool)
    (s : LauncherState) (a p : String) (sa se : Option (Option StreamDest))
    (kw : List (String × KwVal)) (hok : addHostsOK mp s) :
    (dictGet s.access_args a = none →
      run mp fs s a p sa se kw = ⟨⟨[], []⟩, .error (.keyError a)⟩) ∧
    (∀ aargs, dictGet s.access_args a = some aargs →
      dictGet s.pattern_args p = none →
      run mp fs s a p sa se kw = ⟨⟨[], []⟩, .error (.keyError p)⟩) := by
  constructor
  · intro hA
    exact run_error_of_access_none p sa se kw hok hA
  · intro aargs hA hP
    exact run_error_of_pattern_none sa se kw hok hA hP

theorem c3_unknown_key_config_error_witness :
    addHostsOK "srun" iorTest ∧
    dictGet iorTest.access_args "clean" = none ∧
    run "srun" fsNone iorTest "clean" "bw" none none []
      = ⟨⟨[], []⟩, .error (.keyError "clean")⟩ :=
  ⟨by decide, by decide,
    (c3_unknown_key_config_error "srun" fsNone iorTest "clean" "bw" none
      none [] (by decide)).1 (by decide)⟩

/-- C6 (counterexample): the md-workbench adapter is not the
persistent-service variant (that is elbencho, whose preflight starts the
`--service` background process), yet its preflight launches the `-1`
setup phase as a subprocess and returns its handle — it is not a no-op
identity transition; its teardown likewise launches the `-3` cleanup
phase.  The final conjunct shows the launcher is one the constructor
actually produces. -/
theorem c6_lifecycle_noop_counterexample :
    (preflight "srun" mdwLive).eff.launched ≠ [] ∧
    handleOf (preflight "srun" mdwLive) ≠ none ∧
    (teardown "srun" fsNone mdwLive "write" "iops" []).eff.launched ≠ [] ∧
    handleOf (teardown "srun" fsNone mdwLive "write" "iops" []) ≠ none ∧
    mkMdworkbench "srun" (some ["n1", "n2"]) 4 ["/scratch/run1"] 0 false
      false none none [] mdwCfg = .ok mdwLive := by
  refine ⟨by decide, by decide, by decide, by decide, by decide⟩

/-- C6 (amended): preflight and teardown are no-op identity transitions —
no process launched, no state change, no handle returned — only for the
ior adapter (which inherits the base-class no-ops); the md-workbench
adapter's preflight and teardown each launch a subprocess and return its
handle. -/
theorem c6_lifecycle_noop_amended (mp : String) (fs : String → Bool)
    (st : LauncherState) (a p : String) (kw : List (String × KwVal))
    (h : st.variant = Variant.ior) :
    preflight mp st = ⟨⟨[], []⟩, .ok (st, none)⟩ ∧
    teardown mp fs st a p kw = ⟨⟨[], []⟩, .ok (st, none)⟩ := by
  constructor
  · unfold preflight
    rw [h]
  · unfold teardown
    rw [h]

theorem c6_lifecycle_noop_amended_witness :
    iorTest.variant = Variant.ior ∧
    (preflight "srun" iorTest = ⟨⟨[], []⟩, .ok (iorTest, none)⟩ ∧
      teardown "srun" fsNone iorTest "write" "bw" []
        = ⟨⟨[], []⟩, .ok (iorTest, none)⟩) :=
  ⟨by decide,
    c6_lifecycle_noop_amended "srun" fsNone iorTest "write" "bw" []
      (by decide)⟩

/-- Dry-run `teardown` launches nothing and returns no handle, for every
adapter variant. -/
theorem teardown_dry {mp : String} {fs : String → Bool} {st : LauncherState}
    {a p : String} {kw : List (String × KwVal)} (ht : st.test = true) :
    (teardown mp fs st a p kw).eff.launched = [] ∧
    (∀ s1 h1, (teardown mp fs st a p kw).res = .ok (s1, h1) → h1 = none) := by
  unfold teardown
  cases hv : st.variant
  case ior =>
    exact ⟨rfl, fun s1 h1 h => by
      injection h with h
      exact (congrArg Prod.snd h).symm⟩
  case mdworkbench =>
    cases hh : st.hosts
    case none =>
      exact ⟨rfl, fun s1 h1 h => absurd h (by simp)⟩
    case some hs =>
      dsimp only
      rw [if_pos ht]
      exact ⟨rfl, fun s1 h1 h => by
        injection h with h
        exact (congrArg Prod.snd h).symm⟩
  case elbencho =>
    dsimp only
    constructor
    · split
      next e heq =>
        exact (@run_dry mp fs _ "clean" p _ _ kw (by exact ht)).1
      next st2 prc heq =>
        split
        next e2 heq2 =>
          exact (@run_dry mp fs _ "clean" p _ _ kw (by exact ht)).1
        next st4 heq4 =>
          have ht2 : st2.test = true :=
            ((@run_dry mp fs _ "clean" p _ _ kw (by exact ht)).2 st2 prc
              heq).2.1
          have ht4 : st4.test = true := by
            rw [core_eq_test (core_add_hosts heq4)]
            exact ht2
          rw [if_pos ht4]
          exact (@run_dry mp fs _ "clean" p _ _ kw (by exact ht)).1
    · intro s1 h1 h
      split at h
      next e heq => exact absurd h (by simp)
      next st2 prc heq =>
        split at h
        next e2 heq2 => exact absurd h (by simp)
        next st4 heq4 =>
          have ht2 : st2.test = true :=
            ((@run_dry mp fs _ "clean" p _ _ kw (by exact ht)).2 st2 prc
              heq).2.1
          have ht4 : st4.test = true := by
            rw [core_eq_test (core_add_hosts heq4)]
            exact ht2
          rw [if_pos ht4] at h
          have h2 : Except.ok (st4, (none : Option Proc))
              = Except.ok (s1, h1) := h
          injection h2 with h2
          exact (congrArg Prod.snd h2).symm

/-- C7: in dry-run mode (`test=True`) no phase creates a process handle or
launches a subprocess, for every adapter variant, and the command line
`run` assembled is still observable in the log. -/
theorem c7_dry_run_no_process (mp : String) (fs : String → Bool)
    (st : LauncherState) (a p : String) (sa se : Option (Option StreamDest))
    (kw : List (String × KwVal)) (ht : st.test = true) :
    ((preflight mp st).eff.launched = [] ∧
      (∀ s1 h1, (preflight mp st).res = .ok (s1, h1) → h1 = none)) ∧
    ((run mp fs st a p sa se kw).eff.launched = [] ∧
      (∀ s1 h1, (run mp fs st a p sa se kw).res = .ok (s1, h1) →
        h1 = none ∧ (run mp fs st a p sa se kw).eff.log
          = ["Executing: " ++ joinWith " " s1.cmdline])) ∧
    ((teardown mp fs st a p kw).eff.launched = [] ∧
      (∀ s1 h1, (teardown mp fs st a p kw).res = .ok (s1, h1) → h1 = none)) := by
  refine ⟨?_, ?_, ?_⟩
  · unfold preflight
    cases hv : st.variant
    case elbencho =>
      cases hh : st.hosts
      case none =>
        exact ⟨rfl, fun s1 h1 h => absurd h (by simp)⟩
      case some hs =>
        dsimp only
        rw [if_pos ht]
        exact ⟨rfl, fun s1 h1 h => by
          injection h with h
          exact (congrArg Prod.snd h).symm⟩
    case ior =>
      exact ⟨rfl, fun s1 h1 h => by
        injection h with h
        exact (congrArg Prod.snd h).symm⟩
    case mdworkbench =>
      cases hh : st.hosts
      case none =>
        exact ⟨rfl, fun s1 h1 h => absurd h (by simp)⟩
      case some hs =>
        dsimp only
        rw [if_pos ht]
        exact ⟨rfl, fun s1 h1 h => by
          injection h with h
          exact (congrArg Prod.snd h).symm⟩
  · have hrd := @run_dry mp fs st a p sa se kw ht
    exact ⟨hrd.1, fun s1 h1 h => ⟨(hrd.2 s1 h1 h).1, (hrd.2 s1 h1 h).2.2⟩⟩
  · exact teardown_dry ht

theorem c7_dry_run_no_process_witness :
    elbTest.test = true ∧
    (((preflight "srun" elbTest).eff.launched = [] ∧
      (∀ s1 h1, (preflight "srun" elbTest).res = .ok (s1, h1) → h1 = none)) ∧
    ((run "srun" fsNone elbTest "write" "bw" none none []).eff.launched = [] ∧
      (∀ s1 h1,
        (run "srun" fsNone elbTest "write" "bw" none none []).res
            = .ok (s1, h1) →
        h1 = none ∧ (run "srun" fsNone elbTest "write" "bw" none none []).eff.log
          = ["Executing: " ++ joinWith " " s1.cmdline])) ∧
    ((teardown "srun" fsNone elbTest "write" "bw" []).eff.launched = [] ∧
      (∀ s1 h1, (teardown "srun" fsNone elbTest "write" "bw" []).res
          = .ok (s1, h1) → h1 = none))) :=
  ⟨by decide,
    c7_dry_run_no_process "srun" fsNone elbTest "write" "bw" none none []
      (by decide)⟩

/-- C10: when the persistent-service adapter's teardown returns normally,
the launcher's stdout and stderr destinations are exactly what they were
before the call — teardown saves them, clears them for the internal
cleanup run (so the results files are not clobbered), and restores them
(lines 344-350). -/
theorem c10_teardown_restores_streams (mp : String) (fs : String → Bool)
    (st : LauncherState) (a p : String) (kw : List (String × KwVal))
    (hv : st.variant = Variant.elbencho) :
    ∀ s1 h1, (teardown mp fs st a p kw).res = .ok (s1, h1) →
      s1.stdout = st.stdout ∧ s1.stderr = st.stderr := by
  intro s1 h1 h
  unfold teardown at h
  rw [hv] at h
  dsimp only at h
  split at h
  next e heq => exact absurd h (by simp)
  next st2 prc heq =>
    split at h
    next e2 heq2 => exact absurd h (by simp)
    next st4 heq4 =>
      have hso : st4.stdout = st.stdout := by
        have hh := core_eq_stdout (core_add_hosts heq4)
        exact hh
      have hse : st4.stderr = st.stderr := by
        have hh := core_eq_stderr (core_add_hosts heq4)
        exact hh
      split at h
      · injection h with h2
        have hs := congrArg Prod.fst h2
        subst hs
        exact ⟨hso, hse⟩
      · injection h with h2
        have hs := congrArg Prod.fst h2
        subst hs
        exact ⟨hso, hse⟩

theorem c10_teardown_restores_streams_witness :
    elbTest.variant = Variant.elbencho ∧
    (teardown "srun" fsNone elbTest "write" "bw" []).res
      = .ok (stateAfter (teardown "srun" fsNone elbTest "write" "bw" [])
          emptyLauncher,
        handleOf (teardown "srun" fsNone elbTest "write" "bw" [])) ∧
    (stateAfter (teardown "srun" fsNone elbTest "write" "bw" [])
        emptyLauncher).stdout = elbTest.stdout ∧
    (stateAfter (teardown "srun" fsNone elbTest "write" "bw" [])
        emptyLauncher).stderr = elbTest.stderr :=
  ⟨by decide, by decide,
    c10_teardown_restores_streams "srun" fsNone elbTest "write" "bw" []
      (by decide)
      (stateAfter (teardown "srun" fsNone elbTest "write" "bw" [])
        emptyLauncher)
      (handleOf (teardown "srun" fsNone elbTest "write" "bw" []))
      (by decide)⟩

end Iopup
